import Mathlib

/-!
Shallow embedding of the order-construction core of the `stox` repository
(Go package `main`, file with `NewOrder`): enumerations `OrderSide`,
`OrderType`, `OrderStatus`, the `Order` record, the string parsers
`parseStatus`, `parseSide`, `parseType`, the validators `validateQuantity`
and `validatePrice`, and the constructor `NewOrder`.

Modelling choices:
* Go `int64` quantities and prices become `Int`; the code only compares
  them (no arithmetic), so the embedding is exact.
* Go `string` becomes `String`; `strings.TrimSpace` and `strings.ToLower`
  are embedded as `goTrimSpace` and `goToLower` below.  `goToLowerChar`
  embeds `unicode.ToLower` on every rune whose simple lower-case mapping
  is an ASCII character — the ASCII capitals `'A'..'Z'`, U+0130 (İ → i)
  and U+212A (KELVIN SIGN → k) — and fixes every other rune.  Go's
  remaining case mappings send non-ASCII runes to non-ASCII runes, so
  they can never decide a comparison against the parsers' all-ASCII
  keywords, and every parse outcome below coincides with the program's.
  `goIsSpace` embeds `unicode.IsSpace` over the full White_Space table.
* A Go `(T, error)` result becomes `Except String T`, the error carrying
  the exact message the Go code formats.  `NewOrder`'s `(*Order, error)`
  result becomes `Option Order × Option String`, each `return` statement
  of the source mapped to the corresponding pair.
* `uuid.New()` and `time.Now()` are nondeterministic environment reads;
  the `OrderID`, `CreateAt` and `UpdatedAt` fields are omitted from the
  record (no claim mentions them).
-/

namespace Stox

inductive OrderSide where
  | BUY
  | SELL
deriving DecidableEq, Repr

inductive OrderType where
  | MARKET
  | LIMIT
deriving DecidableEq, Repr

inductive OrderStatus where
  | PENDING
  | PARTIALLY_FILLED
  | FILLED
  | CANCELLED
  | REJECTED
deriving DecidableEq, Repr

/-- The `Order` struct (`OrderID`, `CreateAt`, `UpdatedAt` omitted: they are
`uuid.New()` / `time.Now()` environment reads no claim depends on).  The Go
field `Type` is rendered `Type'` because `Type` is a Lean keyword. -/
structure Order where
  Symbol : String
  Side : OrderSide
  Type' : OrderType
  Quantity : Int
  RemainingQuantity : Int
  Price : Int
  Status : OrderStatus
deriving DecidableEq, Repr

/-- Embedding of Go `unicode.IsSpace`: the Latin-1 fast path
(`\t \n \v \f \r ' '`, NEL, NBSP) plus the remaining code points with the
Unicode White_Space property. -/
def goIsSpace (c : Char) : Bool :=
  c.toNat = 9 || c.toNat = 10 || c.toNat = 11 || c.toNat = 12 || c.toNat = 13 ||
  c.toNat = 32 || c.toNat = 0x85 || c.toNat = 0xA0 ||
  c.toNat = 0x1680 || (0x2000 ≤ c.toNat && c.toNat ≤ 0x200A) ||
  c.toNat = 0x2028 || c.toNat = 0x2029 || c.toNat = 0x202F ||
  c.toNat = 0x205F || c.toNat = 0x3000

/-- Embedding of `unicode.ToLower` restricted to the runes whose simple
lower-case image is ASCII: `'A'..'Z'` shift by 32, U+0130 LATIN CAPITAL
LETTER I WITH DOT ABOVE maps to `'i'`, and U+212A KELVIN SIGN maps to
`'k'`.  Every other rune is fixed here; in Go its lower-case image is
never ASCII, so fixing it decides each comparison against the all-ASCII
parser keywords exactly as `unicode.ToLower` does. -/
def goToLowerChar (c : Char) : Char :=
  if 65 ≤ c.toNat ∧ c.toNat ≤ 90 then Char.ofNat (c.toNat + 32)
  else if c.toNat = 0x130 then 'i'
  else if c.toNat = 0x212A then 'k'
  else c

/-- List-level trimming: drop White_Space characters from both ends
(the semantics of Go `strings.TrimSpace`). -/
def trimList (l : List Char) : List Char :=
  ((l.dropWhile goIsSpace).reverse.dropWhile goIsSpace).reverse

/-- Embedding of Go `strings.TrimSpace`. -/
def goTrimSpace (s : String) : String :=
  String.mk (trimList s.toList)

/-- Embedding of Go `strings.ToLower`: character-wise `goToLowerChar` (see
that definition's scope note on the modelled case mappings). -/
def goToLower (s : String) : String :=
  String.mk (s.toList.map goToLowerChar)

/-- `parseStatus` from the source: switch on the trimmed, lower-cased
string; note the single-l spelling `"canceled"` for `CANCELLED`. -/
def parseStatus (s : String) : Except String OrderStatus :=
  let t := goToLower (goTrimSpace s)
  if t = "pending" then .ok .PENDING
  else if t = "partially_filled" then .ok .PARTIALLY_FILLED
  else if t = "filled" then .ok .FILLED
  else if t = "canceled" then .ok .CANCELLED
  else if t = "rejected" then .ok .REJECTED
  else .error ("invalid order status: " ++ s)

/-- `parseSide` from the source. -/
def parseSide (s : String) : Except String OrderSide :=
  let t := goToLower (goTrimSpace s)
  if t = "buy" then .ok .BUY
  else if t = "sell" then .ok .SELL
  else .error ("invalid order side: " ++ s)

/-- `parseType` from the source. -/
def parseType (s : String) : Except String OrderType :=
  let t := goToLower (goTrimSpace s)
  if t = "market" then .ok .MARKET
  else if t = "limit" then .ok .LIMIT
  else .error ("invalid order type: " ++ s)

/-- `validateQuantity` from the source: `q > 0`. -/
def validateQuantity (q : Int) : Bool :=
  q > 0

/-- `validatePrice` from the source: a LIMIT order with `p ≤ 0` is invalid,
everything else (in particular any MARKET price) is valid. -/
def validatePrice (t : OrderType) (p : Int) : Bool :=
  if t = .LIMIT ∧ p ≤ 0 then false else true

/-- `NewOrder` from the source.  Each Go `return` maps to a pair:
`(nil, err)` branches become `(none, some msg)` with the message
`fmt.Errorf("failed to create order: %w", err)` renders, and the final
`return &Order{...}, nil` becomes `(some order, none)`.  The source typo
`"qunatity"` is kept verbatim. -/
def NewOrder (symbol orderType orderSide orderStatus : String) (qty price : Int) :
    Option Order × Option String :=
  match parseStatus orderStatus with
  | .error e => (none, some ("failed to create order: " ++ e))
  | .ok status =>
    match parseSide orderSide with
    | .error e => (none, some ("failed to create order: " ++ e))
    | .ok side =>
      match parseType orderType with
      | .error e => (none, some ("failed to create order: " ++ e))
      | .ok otype =>
        if ¬ validateQuantity qty then
          (none, some "failed to create order: qunatity must be greater than 0")
        else if ¬ validatePrice otype price then
          (none, some "failed to create order: price must be greater than 0")
        else
          (some { Symbol := symbol, Side := side, Type' := otype,
                  Quantity := qty, RemainingQuantity := qty,
                  Price := price, Status := status }, none)

/-! ### Character-level lemmas for trim/lower-case normalisation -/

/-- Complete description of `goToLowerChar`'s effect on code points. -/
lemma toNat_goToLowerChar (c : Char) :
    (goToLowerChar c).toNat =
      if 65 ≤ c.toNat ∧ c.toNat ≤ 90 then c.toNat + 32
      else if c.toNat = 0x130 then 105
      else if c.toNat = 0x212A then 107
      else c.toNat := by
  unfold goToLowerChar
  split_ifs with h1 h2 h3
  · unfold Char.ofNat
    rw [dif_pos (Or.inl (by omega))]
    rfl
  · decide
  · decide
  · rfl

/-- Every rune `goToLowerChar` moves lands in ASCII: the modelled mappings
are exactly `unicode.ToLower`'s mappings with ASCII targets. -/
lemma toNat_goToLowerChar_lt_128_of_moved (c : Char) (h : goToLowerChar c ≠ c) :
    (goToLowerChar c).toNat < 128 := by
  have ht := toNat_goToLowerChar c
  by_cases h1 : 65 ≤ c.toNat ∧ c.toNat ≤ 90
  · rw [if_pos h1] at ht
    omega
  · rw [if_neg h1] at ht
    by_cases h2 : c.toNat = 0x130
    · rw [if_pos h2] at ht
      omega
    · rw [if_neg h2] at ht
      by_cases h3 : c.toNat = 0x212A
      · rw [if_pos h3] at ht
        omega
      · exact absurd (by unfold goToLowerChar; rw [if_neg h1, if_neg h2, if_neg h3]) h

/-- None of the code points involved in lower-casing is whitespace. -/
lemma goIsSpace_eq_false_of_toNat {c : Char}
    (h : (65 ≤ c.toNat ∧ c.toNat ≤ 122) ∨ c.toNat = 0x130 ∨ c.toNat = 0x212A) :
    goIsSpace c = false := by
  simp only [goIsSpace, Bool.or_eq_false_iff, Bool.and_eq_false_iff,
    decide_eq_false_iff_not, not_le]
  omega

lemma goIsSpace_goToLowerChar (c : Char) :
    goIsSpace (goToLowerChar c) = goIsSpace c := by
  have ht := toNat_goToLowerChar c
  by_cases h1 : 65 ≤ c.toNat ∧ c.toNat ≤ 90
  · rw [if_pos h1] at ht
    rw [goIsSpace_eq_false_of_toNat (Or.inl ⟨by omega, by omega⟩),
      goIsSpace_eq_false_of_toNat (Or.inl ⟨by omega, by omega⟩)]
  · rw [if_neg h1] at ht
    by_cases h2 : c.toNat = 0x130
    · rw [if_pos h2] at ht
      rw [goIsSpace_eq_false_of_toNat (Or.inl ⟨by omega, by omega⟩),
        goIsSpace_eq_false_of_toNat (Or.inr (Or.inl h2))]
    · rw [if_neg h2] at ht
      by_cases h3 : c.toNat = 0x212A
      · rw [if_pos h3] at ht
        rw [goIsSpace_eq_false_of_toNat (Or.inl ⟨by omega, by omega⟩),
          goIsSpace_eq_false_of_toNat (Or.inr (Or.inr h3))]
      · unfold goToLowerChar
        rw [if_neg h1, if_neg h2, if_neg h3]

lemma goToLowerChar_goToLowerChar (c : Char) :
    goToLowerChar (goToLowerChar c) = goToLowerChar c := by
  have ht := toNat_goToLowerChar c
  by_cases h1 : 65 ≤ c.toNat ∧ c.toNat ≤ 90
  · rw [if_pos h1] at ht
    have h4 : ¬ (65 ≤ (goToLowerChar c).toNat ∧ (goToLowerChar c).toNat ≤ 90) := by omega
    have h5 : (goToLowerChar c).toNat ≠ 0x130 := by omega
    have h6 : (goToLowerChar c).toNat ≠ 0x212A := by omega
    conv_lhs => rw [goToLowerChar]
    rw [if_neg h4, if_neg h5, if_neg h6]
  · by_cases h2 : c.toNat = 0x130
    · have hi : goToLowerChar c = 'i' := by
        unfold goToLowerChar
        rw [if_neg h1, if_pos h2]
      rw [hi]
      decide
    · by_cases h3 : c.toNat = 0x212A
      · have hk : goToLowerChar c = 'k' := by
          unfold goToLowerChar
          rw [if_neg h1, if_neg h2, if_pos h3]
        rw [hk]
        decide
      · have hc : goToLowerChar c = c := by
          unfold goToLowerChar
          rw [if_neg h1, if_neg h2, if_neg h3]
        rw [hc, hc]

/-! ### List-level lemmas about `trimList` -/

lemma dropWhile_idem {α : Type} (p : α → Bool) (l : List α) :
    (l.dropWhile p).dropWhile p = l.dropWhile p := by
  induction l with
  | nil => rfl
  | cons a t ih =>
    rw [List.dropWhile_cons]
    by_cases h : p a
    · simp only [if_pos h]
      exact ih
    · simp [List.dropWhile_cons, h]

lemma head?_dropWhile {α : Type} (p : α → Bool) (l : List α) :
    ∀ a, (l.dropWhile p).head? = some a → p a = false := by
  induction l with
  | nil => intro a h; simp at h
  | cons b t ih =>
    intro a h
    rw [List.dropWhile_cons] at h
    by_cases hb : p b
    · rw [if_pos hb] at h
      exact ih a h
    · rw [if_neg hb] at h
      simp only [List.head?_cons, Option.some.injEq] at h
      rw [← h]
      exact Bool.eq_false_iff.mpr hb

lemma dropWhile_eq_self_of_head? {α : Type} (p : α → Bool) (l : List α)
    (h : ∀ a, l.head? = some a → p a = false) : l.dropWhile p = l := by
  cases l with
  | nil => rfl
  | cons a t =>
    rw [List.dropWhile_cons, if_neg]
    simp [h a rfl]

lemma getLast?_dropWhile {α : Type} (p : α → Bool) (l : List α)
    (h : l.dropWhile p ≠ []) : (l.dropWhile p).getLast? = l.getLast? := by
  obtain ⟨t, ht⟩ := List.dropWhile_suffix (l := l) p
  conv_rhs => rw [← ht]
  rw [List.getLast?_append_of_ne_nil _ h]

lemma trimList_trimList (l : List Char) : trimList (trimList l) = trimList l := by
  have h1 : ((trimList l).dropWhile goIsSpace) = trimList l := by
    apply dropWhile_eq_self_of_head?
    intro a ha
    unfold trimList at ha
    rw [List.head?_reverse] at ha
    have hvne : (l.dropWhile goIsSpace).reverse.dropWhile goIsSpace ≠ [] := by
      intro hnil
      rw [hnil] at ha
      simp at ha
    rw [getLast?_dropWhile _ _ hvne, List.getLast?_reverse] at ha
    exact head?_dropWhile goIsSpace l a ha
  conv_lhs => rw [trimList, h1]
  unfold trimList
  rw [List.reverse_reverse, dropWhile_idem]

lemma trimList_map_goToLowerChar (l : List Char) :
    trimList (l.map goToLowerChar) = (trimList l).map goToLowerChar := by
  have hp : (goIsSpace ∘ goToLowerChar) = goIsSpace := funext goIsSpace_goToLowerChar
  unfold trimList
  rw [List.dropWhile_map, hp, ← List.map_reverse, List.dropWhile_map, hp, ← List.map_reverse]

lemma map_goToLowerChar_idem (l : List Char) :
    (l.map goToLowerChar).map goToLowerChar = l.map goToLowerChar := by
  rw [List.map_map]
  exact List.map_congr_left fun c _ => goToLowerChar_goToLowerChar c

/-! ### String-level normalisation -/

lemma toList_goTrimSpace (s : String) : (goTrimSpace s).toList = trimList s.toList := rfl

lemma toList_goToLower (s : String) : (goToLower s).toList = s.toList.map goToLowerChar := rfl

lemma canon_idem (s : String) :
    goToLower (goTrimSpace (goToLower (goTrimSpace s))) = goToLower (goTrimSpace s) := by
  show String.mk (((goTrimSpace (goToLower (goTrimSpace s))).toList).map goToLowerChar) =
    String.mk (((goTrimSpace s).toList).map goToLowerChar)
  apply congrArg String.mk
  simp only [toList_goTrimSpace, toList_goToLower]
  rw [trimList_map_goToLowerChar, trimList_trimList, map_goToLowerChar_idem]

/-! ### Parser characterisations -/

lemma parseSide_toOption (s : String) :
    (parseSide s).toOption =
      (if goToLower (goTrimSpace s) = "buy" then some OrderSide.BUY
       else if goToLower (goTrimSpace s) = "sell" then some OrderSide.SELL
       else none) := by
  unfold parseSide
  by_cases h1 : goToLower (goTrimSpace s) = "buy" <;>
    by_cases h2 : goToLower (goTrimSpace s) = "sell" <;>
      simp [h1, h2, Except.toOption]

lemma parseType_toOption (s : String) :
    (parseType s).toOption =
      (if goToLower (goTrimSpace s) = "market" then some OrderType.MARKET
       else if goToLower (goTrimSpace s) = "limit" then some OrderType.LIMIT
       else none) := by
  unfold parseType
  by_cases h1 : goToLower (goTrimSpace s) = "market" <;>
    by_cases h2 : goToLower (goTrimSpace s) = "limit" <;>
      simp [h1, h2, Except.toOption]

lemma parseStatus_toOption (s : String) :
    (parseStatus s).toOption =
      (if goToLower (goTrimSpace s) = "pending" then some OrderStatus.PENDING
       else if goToLower (goTrimSpace s) = "partially_filled" then some OrderStatus.PARTIALLY_FILLED
       else if goToLower (goTrimSpace s) = "filled" then some OrderStatus.FILLED
       else if goToLower (goTrimSpace s) = "canceled" then some OrderStatus.CANCELLED
       else if goToLower (goTrimSpace s) = "rejected" then some OrderStatus.REJECTED
       else none) := by
  unfold parseStatus
  by_cases h1 : goToLower (goTrimSpace s) = "pending" <;>
    by_cases h2 : goToLower (goTrimSpace s) = "partially_filled" <;>
      by_cases h3 : goToLower (goTrimSpace s) = "filled" <;>
        by_cases h4 : goToLower (goTrimSpace s) = "canceled" <;>
          by_cases h5 : goToLower (goTrimSpace s) = "rejected" <;>
            simp [h1, h2, h3, h4, h5, Except.toOption]

lemma parseSide_toOption_canon (s : String) :
    (parseSide (goToLower (goTrimSpace s))).toOption = (parseSide s).toOption := by
  rw [parseSide_toOption, parseSide_toOption, canon_idem]

lemma parseType_toOption_canon (s : String) :
    (parseType (goToLower (goTrimSpace s))).toOption = (parseType s).toOption := by
  rw [parseType_toOption, parseType_toOption, canon_idem]

lemma parseStatus_toOption_canon (s : String) :
    (parseStatus (goToLower (goTrimSpace s))).toOption = (parseStatus s).toOption := by
  rw [parseStatus_toOption, parseStatus_toOption, canon_idem]

/-! ### Characterisation of `NewOrder`'s returned order -/

lemma NewOrder_fst (sym t sd st : String) (q p : Int) :
    (NewOrder sym t sd st q p).1 =
      match (parseStatus st).toOption, (parseSide sd).toOption, (parseType t).toOption with
      | some status, some side, some otype =>
        if ¬ validateQuantity q then none
        else if ¬ validatePrice otype p then none
        else some { Symbol := sym, Side := side, Type' := otype, Quantity := q,
                    RemainingQuantity := q, Price := p, Status := status }
      | _, _, _ => none := by
  unfold NewOrder
  cases parseStatus st
  all_goals cases parseSide sd
  all_goals cases parseType t
  all_goals simp only [Except.toOption]
  all_goals (first | rfl | (split_ifs <;> rfl))

lemma NewOrder_error_iff (sym t sd st : String) (q p : Int) :
    ((NewOrder sym t sd st q p).1.isSome ↔ (NewOrder sym t sd st q p).2 = none) ∧
    ((NewOrder sym t sd st q p).1 = none ↔ (NewOrder sym t sd st q p).2.isSome) := by
  unfold NewOrder
  cases parseStatus st <;> cases parseSide sd <;> cases parseType t
  all_goals simp
  all_goals split_ifs <;> simp

lemma except_toOption_eq_some {ε α : Type} (e : Except ε α) (a : α) :
    e.toOption = some a ↔ e = .ok a := by
  cases e <;> simp [Except.toOption]

/-- A successful `NewOrder` result, characterised: the returned order exists
iff all three parses succeed and both validations pass, and then every field
is determined by the inputs. -/
lemma NewOrder_some_iff (sym t sd st : String) (q p : Int) (o : Order) :
    (NewOrder sym t sd st q p).1 = some o ↔
      ∃ status side otype,
        parseStatus st = .ok status ∧ parseSide sd = .ok side ∧ parseType t = .ok otype ∧
        validateQuantity q = true ∧ validatePrice otype p = true ∧
        o = { Symbol := sym, Side := side, Type' := otype, Quantity := q,
              RemainingQuantity := q, Price := p, Status := status } := by
  unfold NewOrder
  cases parseStatus st
  all_goals cases parseSide sd
  all_goals cases parseType t
  all_goals simp
  all_goals split_ifs
  all_goals simp_all
  all_goals exact eq_comm

lemma NewOrder_fst_canon (sym t sd st : String) (q p : Int) :
    (NewOrder sym (goToLower (goTrimSpace t)) (goToLower (goTrimSpace sd))
        (goToLower (goTrimSpace st)) q p).1 = (NewOrder sym t sd st q p).1 := by
  rw [NewOrder_fst, NewOrder_fst, parseStatus_toOption_canon, parseSide_toOption_canon,
    parseType_toOption_canon]

/-! ## Claims -/

/-- C1, counterexample: `NewOrder` succeeds on status input `"filled"` (order
returned, error nil), and the returned order's `Status` is `FILLED`, not
`PENDING`: construction does not force the status to `PENDING`; it uses
whatever status the `orderStatus` argument parses to. -/
theorem C1_counterexample :
    (NewOrder "AAPL" "limit" "buy" "filled" 10 5).2 = none ∧
    (NewOrder "AAPL" "limit" "buy" "filled" 10 5).1 =
      some { Symbol := "AAPL", Side := .BUY, Type' := .LIMIT, Quantity := 10,
             RemainingQuantity := 10, Price := 5, Status := .FILLED } ∧
    OrderStatus.FILLED ≠ OrderStatus.PENDING := by
  refine ⟨by decide, by decide, by decide⟩

/-- C1, amended: for every input on which `NewOrder` succeeds, the returned
order's `Status` is the status the `orderStatus` argument parses to — it is
`PENDING` exactly when `orderStatus` parses to `PENDING` (as in the
repository's own `main`, which passes `"pending"`); and `NewOrder` returns no
order exactly when it returns an error. -/
theorem C1_amended_status (symbol orderType orderSide orderStatus : String) (qty price : Int) :
    (∀ o, (NewOrder symbol orderType orderSide orderStatus qty price).1 = some o →
      parseStatus orderStatus = .ok o.Status ∧
      (o.Status = .PENDING ↔ parseStatus orderStatus = .ok OrderStatus.PENDING)) ∧
    ((NewOrder symbol orderType orderSide orderStatus qty price).1 = none ↔
      (NewOrder symbol orderType orderSide orderStatus qty price).2.isSome) := by
  refine ⟨?_, (NewOrder_error_iff symbol orderType orderSide orderStatus qty price).2⟩
  intro o h
  rw [NewOrder_some_iff] at h
  obtain ⟨status, side, otype, h1, _, _, _, _, rfl⟩ := h
  refine ⟨h1, ?_⟩
  rw [h1]
  simp

/-- C1 witness: the amended theorem evaluated on the repository's own example
input (status `"pending"`). -/
theorem C1_amended_status_witness :
    parseStatus "pending" =
      .ok ({ Symbol := "AAPL", Side := .BUY, Type' := .LIMIT, Quantity := 10,
             RemainingQuantity := 10, Price := 5, Status := .PENDING } : Order).Status :=
  (((C1_amended_status "AAPL" "limit" "buy" "pending" 10 5).1 _ (by decide))).1

/-- C2, counterexample: `NewOrder` with an empty symbol string succeeds (no
error), returning an order whose `Symbol` is empty — the source performs no
symbol validation at all. -/
theorem C2_counterexample :
    (NewOrder "" "limit" "buy" "pending" 10 5).1 =
      some { Symbol := "", Side := .BUY, Type' := .LIMIT, Quantity := 10,
             RemainingQuantity := 10, Price := 5, Status := .PENDING } ∧
    (NewOrder "" "limit" "buy" "pending" 10 5).2 = none := by
  refine ⟨by decide, by decide⟩

/-- C2, amended: `NewOrder` does not validate the symbol: whether it succeeds
is independent of the `symbol` argument (in particular an empty symbol is
accepted whenever the remaining inputs pass validation), and the returned
order's `Symbol` is the input string, empty or not. -/
theorem C2_amended_no_symbol_validation (sym sym' t sd st : String) (q p : Int) :
    ((NewOrder sym t sd st q p).1.isSome ↔ (NewOrder sym' t sd st q p).1.isSome) ∧
    (∀ o, (NewOrder sym t sd st q p).1 = some o → o.Symbol = sym) := by
  constructor
  · rw [Option.isSome_iff_exists, Option.isSome_iff_exists]
    constructor
    · rintro ⟨o, ho⟩
      rw [NewOrder_some_iff] at ho
      obtain ⟨status, side, otype, h1, h2, h3, h4, h5, _⟩ := ho
      exact ⟨_, (NewOrder_some_iff sym' t sd st q p _).mpr
        ⟨status, side, otype, h1, h2, h3, h4, h5, rfl⟩⟩
    · rintro ⟨o, ho⟩
      rw [NewOrder_some_iff] at ho
      obtain ⟨status, side, otype, h1, h2, h3, h4, h5, _⟩ := ho
      exact ⟨_, (NewOrder_some_iff sym t sd st q p _).mpr
        ⟨status, side, otype, h1, h2, h3, h4, h5, rfl⟩⟩
  · intro o ho
    rw [NewOrder_some_iff] at ho
    obtain ⟨_, _, _, _, _, _, _, _, rfl⟩ := ho
    rfl

/-- C2 witness: the amended theorem evaluated at the empty symbol. -/
theorem C2_amended_witness :
    ({ Symbol := "", Side := .BUY, Type' := .LIMIT, Quantity := 10,
       RemainingQuantity := 10, Price := 5, Status := .PENDING } : Order).Symbol = "" :=
  (C2_amended_no_symbol_validation "" "AAPL" "limit" "buy" "pending" 10 5).2 _ (by decide)

/-- C3: an input with `qty ≤ 0` makes `NewOrder` return an error and no
order, and every order `NewOrder` returns has `Quantity > 0`. -/
theorem C3_quantity_validation (sym t sd st : String) (q p : Int) :
    (q ≤ 0 → (NewOrder sym t sd st q p).1 = none ∧ (NewOrder sym t sd st q p).2.isSome) ∧
    (∀ o, (NewOrder sym t sd st q p).1 = some o → 0 < o.Quantity) := by
  constructor
  · intro hq
    have h1 : (NewOrder sym t sd st q p).1 = none := by
      cases hcase : (NewOrder sym t sd st q p).1 with
      | none => rfl
      | some o =>
        rw [NewOrder_some_iff] at hcase
        obtain ⟨_, _, _, _, _, _, h4, _, _⟩ := hcase
        simp [validateQuantity] at h4
        omega
    exact ⟨h1, ((NewOrder_error_iff sym t sd st q p).2).mp h1⟩
  · intro o ho
    rw [NewOrder_some_iff] at ho
    obtain ⟨_, _, _, _, _, _, h4, _, rfl⟩ := ho
    simpa [validateQuantity] using h4

/-- C3 witness: evaluated at `qty = -3`. -/
theorem C3_quantity_validation_witness :
    (NewOrder "AAPL" "limit" "buy" "pending" (-3) 5).1 = none ∧
    (NewOrder "AAPL" "limit" "buy" "pending" (-3) 5).2.isSome :=
  (C3_quantity_validation "AAPL" "limit" "buy" "pending" (-3) 5).1 (by norm_num)

/-- C4: a LIMIT order with `price ≤ 0` is rejected with an error and no
order, while a MARKET order succeeds for every price (zero and negative
included) as long as status and side parse and the quantity is positive. -/
theorem C4_price_validation (sym t sd st : String) (q p : Int) :
    (parseType t = .ok OrderType.LIMIT → p ≤ 0 →
      (NewOrder sym t sd st q p).1 = none ∧ (NewOrder sym t sd st q p).2.isSome) ∧
    (parseType t = .ok OrderType.MARKET → (parseStatus st).toOption.isSome →
      (parseSide sd).toOption.isSome → 0 < q →
      (NewOrder sym t sd st q p).1.isSome ∧ (NewOrder sym t sd st q p).2 = none) := by
  constructor
  · intro hty hp
    have h1 : (NewOrder sym t sd st q p).1 = none := by
      cases hcase : (NewOrder sym t sd st q p).1 with
      | none => rfl
      | some o =>
        rw [NewOrder_some_iff] at hcase
        obtain ⟨_, _, otype, _, _, h3, _, h5, _⟩ := hcase
        rw [hty] at h3
        injection h3 with h3
        rw [← h3] at h5
        simp [validatePrice, hp] at h5
    exact ⟨h1, ((NewOrder_error_iff sym t sd st q p).2).mp h1⟩
  · intro hty hst hsd hq
    cases hst' : parseStatus st with
    | error e => rw [hst', Except.toOption] at hst; simp at hst
    | ok status =>
      cases hsd' : parseSide sd with
      | error e => rw [hsd', Except.toOption] at hsd; simp at hsd
      | ok side =>
        have hsome : (NewOrder sym t sd st q p).1.isSome := by
          rw [Option.isSome_iff_exists]
          refine ⟨_, (NewOrder_some_iff sym t sd st q p _).mpr
            ⟨status, side, .MARKET, hst', hsd', hty, ?_, ?_, rfl⟩⟩
          · simp [validateQuantity]
            omega
          · simp [validatePrice]
        exact ⟨hsome, (NewOrder_error_iff sym t sd st q p).1.mp hsome⟩

/-- C4 witness: a MARKET order with a negative price succeeds. -/
theorem C4_price_validation_witness :
    (NewOrder "AAPL" "market" "buy" "pending" 10 (-7)).1.isSome ∧
    (NewOrder "AAPL" "market" "buy" "pending" 10 (-7)).2 = none :=
  (C4_price_validation "AAPL" "market" "buy" "pending" 10 (-7)).2
    (by rw [← except_toOption_eq_some]; decide) (by decide) (by decide) (by norm_num)

/-- C5: an unparseable side or type string makes `NewOrder` return an error
and no order (in particular when both fail), and every returned order's
`Side` is `BUY` or `SELL` and `Type` is `MARKET` or `LIMIT`. -/
theorem C5_enum_validation (sym t sd st : String) (q p : Int) :
    ((parseSide sd).toOption = none →
      (NewOrder sym t sd st q p).1 = none ∧ (NewOrder sym t sd st q p).2.isSome) ∧
    ((parseType t).toOption = none →
      (NewOrder sym t sd st q p).1 = none ∧ (NewOrder sym t sd st q p).2.isSome) ∧
    (∀ o, (NewOrder sym t sd st q p).1 = some o →
      (o.Side = .BUY ∨ o.Side = .SELL) ∧ (o.Type' = .MARKET ∨ o.Type' = .LIMIT)) := by
  refine ⟨?_, ?_, ?_⟩
  · intro hsd
    have h1 : (NewOrder sym t sd st q p).1 = none := by
      cases hcase : (NewOrder sym t sd st q p).1 with
      | none => rfl
      | some o =>
        rw [NewOrder_some_iff] at hcase
        obtain ⟨_, _, _, _, h2, _, _, _, _⟩ := hcase
        rw [h2, Except.toOption] at hsd
        simp at hsd
    exact ⟨h1, ((NewOrder_error_iff sym t sd st q p).2).mp h1⟩
  · intro hty
    have h1 : (NewOrder sym t sd st q p).1 = none := by
      cases hcase : (NewOrder sym t sd st q p).1 with
      | none => rfl
      | some o =>
        rw [NewOrder_some_iff] at hcase
        obtain ⟨_, _, _, _, _, h3, _, _, _⟩ := hcase
        rw [h3, Except.toOption] at hty
        simp at hty
    exact ⟨h1, ((NewOrder_error_iff sym t sd st q p).2).mp h1⟩
  · intro o ho
    rw [NewOrder_some_iff] at ho
    obtain ⟨status, side, otype, _, _, _, _, _, rfl⟩ := ho
    cases side <;> cases otype <;> simp

/-- C5 witness: an unparseable side string is rejected. -/
theorem C5_enum_validation_witness :
    (NewOrder "AAPL" "limit" "hold" "pending" 10 5).1 = none ∧
    (NewOrder "AAPL" "limit" "hold" "pending" 10 5).2.isSome :=
  (C5_enum_validation "AAPL" "limit" "hold" "pending" 10 5).1 (by decide)

/-- C6: every order `NewOrder` returns has `RemainingQuantity` equal to
`Quantity`, both equal to the requested `qty`. -/
theorem C6_remaining_equals_quantity (sym t sd st : String) (q p : Int) :
    ∀ o, (NewOrder sym t sd st q p).1 = some o →
      o.RemainingQuantity = o.Quantity ∧ o.Quantity = q := by
  intro o ho
  rw [NewOrder_some_iff] at ho
  obtain ⟨_, _, _, _, _, _, _, _, rfl⟩ := ho
  exact ⟨rfl, rfl⟩

/-- C6 witness: evaluated on the repository's example input. -/
theorem C6_remaining_equals_quantity_witness :
    ({ Symbol := "AAPL", Side := .BUY, Type' := .LIMIT, Quantity := 10,
       RemainingQuantity := 10, Price := 5, Status := .PENDING } : Order).RemainingQuantity =
      ({ Symbol := "AAPL", Side := .BUY, Type' := .LIMIT, Quantity := 10,
         RemainingQuantity := 10, Price := 5, Status := .PENDING } : Order).Quantity ∧
    ({ Symbol := "AAPL", Side := .BUY, Type' := .LIMIT, Quantity := 10,
       RemainingQuantity := 10, Price := 5, Status := .PENDING } : Order).Quantity = 10 :=
  C6_remaining_equals_quantity "AAPL" "limit" "buy" "pending" 10 5 _ (by decide)

/-- C7, counterexample: `NewOrder` succeeds on status input `"filled"` with
quantity 7, so the returned order has `Status = FILLED` yet
`RemainingQuantity = 7 ≠ 0`: the equivalence `status = FILLED ⇔
remaining_quantity = 0` fails on freshly constructed orders. -/
theorem C7_counterexample :
    (NewOrder "MSFT" "market" "sell" "filled" 7 0).1 =
      some { Symbol := "MSFT", Side := .SELL, Type' := .MARKET, Quantity := 7,
             RemainingQuantity := 7, Price := 0, Status := .FILLED } ∧
    ¬ (({ Symbol := "MSFT", Side := .SELL, Type' := .MARKET, Quantity := 7,
          RemainingQuantity := 7, Price := 0, Status := .FILLED } : Order).Status =
            .FILLED ↔
        ({ Symbol := "MSFT", Side := .SELL, Type' := .MARKET, Quantity := 7,
           RemainingQuantity := 7, Price := 0, Status := .FILLED } : Order).RemainingQuantity =
            0) := by
  refine ⟨by decide, by decide⟩

/-- C7, amended: every order `NewOrder` returns satisfies
`0 ≤ RemainingQuantity ≤ Quantity` (indeed `RemainingQuantity` is positive),
and the direction `RemainingQuantity = 0 → Status = FILLED` holds
(vacuously); the converse direction of the claimed equivalence fails, since
`Status` is taken from the `orderStatus` argument (see the counterexample). -/
theorem C7_amended_bounds (sym t sd st : String) (q p : Int) (o : Order)
    (h : (NewOrder sym t sd st q p).1 = some o) :
    0 ≤ o.RemainingQuantity ∧ o.RemainingQuantity ≤ o.Quantity ∧
    (o.RemainingQuantity = 0 → o.Status = .FILLED) ∧ 0 < o.RemainingQuantity := by
  rw [NewOrder_some_iff] at h
  obtain ⟨_, _, _, _, _, _, h4, _, rfl⟩ := h
  simp only [validateQuantity, decide_eq_true_eq] at h4
  dsimp only
  refine ⟨by omega, le_refl _, ?_, by omega⟩
  intro h0
  exact absurd h0 (by omega)

/-- C7 witness: the amended theorem evaluated on a concrete successful
construction. -/
theorem C7_amended_bounds_witness :
    0 ≤ ({ Symbol := "GOOG", Side := .BUY, Type' := .MARKET, Quantity := 4,
           RemainingQuantity := 4, Price := 0, Status := .PENDING } : Order).RemainingQuantity :=
  (C7_amended_bounds "GOOG" "market" "buy" "pending" 4 0 _ (by decide)).1

/-- C8: parsing of side, type and status is invariant under surrounding
whitespace and letter case — each parser's outcome on `s` equals its outcome
on the trimmed lower-cased form of `s`, and `NewOrder` returns the same
order when its three string enums are replaced by their trimmed lower-cased
forms (so `"  BUY "` and `"buy"` are accepted identically).  Case folding
here includes `unicode.ToLower`'s non-ASCII mappings with ASCII targets,
which complete keyword matches: a status spelled `"PENDİNG"` with U+0130
parses to `PENDING`, and a type spelled with U+212A KELVIN SIGN as its `k`
parses to `MARKET`. -/
theorem C8_parse_canonical_invariance (s sym t sd st : String) (q p : Int) :
    (parseSide (goToLower (goTrimSpace s))).toOption = (parseSide s).toOption ∧
    (parseType (goToLower (goTrimSpace s))).toOption = (parseType s).toOption ∧
    (parseStatus (goToLower (goTrimSpace s))).toOption = (parseStatus s).toOption ∧
    (NewOrder sym (goToLower (goTrimSpace t)) (goToLower (goTrimSpace sd))
        (goToLower (goTrimSpace st)) q p).1 = (NewOrder sym t sd st q p).1 ∧
    (parseStatus "PENDİNG").toOption = some OrderStatus.PENDING ∧
    (parseType " marKet ").toOption = some OrderType.MARKET :=
  ⟨parseSide_toOption_canon s, parseType_toOption_canon s, parseStatus_toOption_canon s,
    NewOrder_fst_canon sym t sd st q p, by decide, by decide⟩

/-- C9: `parseStatus` accepts as `CANCELLED` exactly the strings whose
trimmed lower-cased form is the single-l spelling `"canceled"`; the double-l
spelling `"cancelled"` is an error, and `NewOrder` fails on it. -/
theorem C9_canceled_spelling (s sym t sd : String) (q p : Int) :
    (parseStatus s = .ok OrderStatus.CANCELLED ↔ goToLower (goTrimSpace s) = "canceled") ∧
    (parseStatus "cancelled").toOption = none ∧
    (NewOrder sym t sd "cancelled" q p).1 = none ∧
    (NewOrder sym t sd "cancelled" q p).2.isSome := by
  have hc : (NewOrder sym t sd "cancelled" q p).1 = none := by
    rw [NewOrder_fst]
    have h : (parseStatus "cancelled").toOption = none := by decide
    rw [h]
  refine ⟨?_, by decide, hc, ((NewOrder_error_iff sym t sd "cancelled" q p).2).mp hc⟩
  rw [← except_toOption_eq_some, parseStatus_toOption]
  split_ifs with h1 h2 h3 h4 h5
  · exact ⟨fun h => absurd (Option.some.inj h) (by decide),
      fun h => absurd (h1.symm.trans h) (by decide)⟩
  · exact ⟨fun h => absurd (Option.some.inj h) (by decide),
      fun h => absurd (h2.symm.trans h) (by decide)⟩
  · exact ⟨fun h => absurd (Option.some.inj h) (by decide),
      fun h => absurd (h3.symm.trans h) (by decide)⟩
  · exact ⟨fun _ => h4, fun _ => rfl⟩
  · exact ⟨fun h => absurd (Option.some.inj h) (by decide), fun h => absurd h h4⟩
  · exact ⟨fun h => h.elim, fun h => absurd h h4⟩

/-- C9 witness: the characterisation applied at the double-l spelling. -/
theorem C9_canceled_spelling_witness :
    (NewOrder "AAPL" "limit" "buy" "cancelled" 10 5).1 = none :=
  (C9_canceled_spelling "canceled" "AAPL" "limit" "buy" 10 5).2.2.1

/-- C10: `NewOrder` returns exactly one of an order with a nil error, or no
order with a non-nil error — an order is returned iff the error is nil, and
no order is returned iff an error is. -/
theorem C10_result_exclusivity (sym t sd st : String) (q p : Int) :
    ((NewOrder sym t sd st q p).1.isSome ↔ (NewOrder sym t sd st q p).2 = none) ∧
    ((NewOrder sym t sd st q p).1 = none ↔ (NewOrder sym t sd st q p).2.isSome) :=
  NewOrder_error_iff sym t sd st q p

/-- C10 witness: the exclusivity iffs applied on a failing input. -/
theorem C10_result_exclusivity_witness :
    (NewOrder "AAPL" "noType" "buy" "pending" 10 5).1 = none ↔
    (NewOrder "AAPL" "noType" "buy" "pending" 10 5).2.isSome :=
  (C10_result_exclusivity "AAPL" "noType" "buy" "pending" 10 5).2

end Stox
